import Mathlib

/-!
Verification development for `server/events/plan_command_runner.go`.

The runner's two control paths (`runAutoplan` for the automatic trigger and
`run` for the comment trigger) are embedded as pure functions from the
runner's configuration and an environment of collaborator oracles to the
list of externally observable calls (the event trace): commit-status
updates, pull-comment updates, plan deletion, lock release, lock attempts,
execution-pool invocations, the persistence write, and policy-check
dispatch.  Collaborators (command builder, lock backend, planning runner,
persistence) are oracles supplied by the environment; their outcomes drive
the same branches the Go code takes.
-/

namespace Atlantis

/-- Command kinds (`command.Name`).  Only Plan, PolicyCheck and Apply occur in
this core; `unknown` stands for any other kind, which `partitionProjectCmds`
logs and drops. -/
inductive CommandName
  | plan
  | policyCheck
  | apply
  | unknown
  deriving DecidableEq

/-- Commit status values (`models.CommitStatus`). -/
inductive CommitStatus
  | pending
  | success
  | failed
  deriving DecidableEq

/-- The fields of `command.ProjectContext` that this core reads. -/
structure ProjectContext where
  commandName : CommandName
  repoRelDir : String
  workspace : String
  projectName : String
  repoLocking : Bool
  parallelPlanEnabled : Bool
  deriving DecidableEq

/-- The fields of `command.ProjectResult` that this core reads or writes.
`planSuccess` stands for presence of the `PlanSuccess` payload. -/
structure ProjectResult where
  command : CommandName
  planSuccess : Bool
  error : Option String
  failure : String
  repoRelDir : String
  workspace : String
  projectName : String
  deriving DecidableEq

/-- The `lockResult.Error != nil || lockResult.Failure != ""` test from the
lock-acquisition loops (`plan_command_runner.go` lines 157 and 325). -/
def ProjectResult.hasProblem (r : ProjectResult) : Bool :=
  r.error.isSome || !(r.failure == "")

/-- The fields of `command.Result` used here: the aggregated project results,
the `PlansDeleted` flag, and the top-level `Error`. -/
structure Result where
  projectResults : List ProjectResult
  plansDeleted : Bool
  error : Option String
  deriving DecidableEq

/-- Modelled from the spec: `command.Result.HasErrors` is declared outside
this core.  Per the spec, "has errors" is true if any ProjectResult carries
an error or failure payload (the per-result test is the same
`Error != nil || Failure != ""` check), or the top-level error is set. -/
def Result.HasErrors (r : Result) : Bool :=
  r.error.isSome || r.projectResults.any ProjectResult.hasProblem

/-- Modelled from the spec: the per-project states of `models.ProjectStatus`
that `updateCommitStatus` counts (errored plan, applied, planned with no
changes, errored apply); `planned` stands for every other state. -/
inductive ProjectPlanStatus
  | planned
  | erroredPlan
  | plannedNoChanges
  | applied
  | erroredApply
  deriving DecidableEq

/-- Modelled from the spec: `models.PullStatus`, the durable per-pull record
of the latest known outcome per project.  Only the list of per-project
states matters to this core. -/
structure PullStatus where
  projects : List ProjectPlanStatus
  deriving DecidableEq

/-- Modelled from the spec: `models.PullStatus.StatusCount` counts the
projects currently in the given state. -/
def PullStatus.statusCount (ps : PullStatus) (s : ProjectPlanStatus) : Nat :=
  (ps.projects.filter (fun q => q == s)).length

/-- One externally observable collaborator call made during a pass. -/
inductive Event
  | fetchPullReqStatus
  | discardReviews
  | updateCombined (status : CommitStatus) (name : CommandName)
  | updateCombinedCount (status : CommitStatus) (name : CommandName)
      (numSuccess : Nat) (total : Nat)
  | updatePull (r : Result)
  | deletePlans
  | unlockByPull
  | tryLock (pctx : ProjectContext)
  | runPool (parallel : Bool) (cmds : List ProjectContext)
  | updateDBCall (results : List ProjectResult)
  | runPolicyCheck (cmds : List ProjectContext)
  deriving DecidableEq

/-- Outcome of one `projectLocker.TryLock` call: an infrastructure error, or
a response whose `LockFailureReason` is empty exactly when the lock was
acquired. -/
inductive TryLockOutcome
  | err (msg : String)
  | resp (lockFailureReason : String)
  deriving DecidableEq

/-- The collaborator oracles for one pass: the command builder's answer, the
lock backend, the planning runner, whether the auto-merger reports
automerge enabled for the batch's commands (modelled from the spec as a
per-batch property, since `AutoMerger.automergeEnabled` is declared outside
this core), the persistence write, and the persisted-status read. -/
structure Env where
  buildCommands : Except String (List ProjectContext)
  tryLock : ProjectContext → TryLockOutcome
  runPlan : ProjectContext → ProjectResult
  automergeEnabled : Bool
  updateDB : List ProjectResult → Except String PullStatus
  getPullStatus : Except String (Option PullStatus)

/-- The configuration fields of `PlanCommandRunner` that steer control flow.
`hasProjectLocker` is the `p.projectLocker != nil` test. -/
structure PlanCommandRunner where
  silenceVCSStatusNoPlans : Bool
  silenceVCSStatusNoProjects : Bool
  SilenceNoProjects : Bool
  discardApprovalOnPlan : Bool
  hasProjectLocker : Bool
  deriving DecidableEq

/-- Modelled from the spec: `CommentCommand.IsForSpecificProject` (declared
outside this core) — whether the comment named one specific project. -/
structure CommentCommand where
  isForSpecificProject : Bool
  deriving DecidableEq

/-- The trigger dispatched on by the top-level `Run`. -/
inductive Trigger
  | auto
  | comment
  deriving DecidableEq

/-- `partitionProjectCmds` (lines 448-466): splits the built commands by
kind, preserving order; any other kind is logged and dropped. -/
def partitionProjectCmds : List ProjectContext → List ProjectContext × List ProjectContext
  | [] => ([], [])
  | c :: rest =>
    let p := partitionProjectCmds rest
    match c.commandName with
    | CommandName.plan => (c :: p.1, p.2)
    | CommandName.policyCheck => (p.1, c :: p.2)
    | _ => p

/-- `isParallelEnabled` (lines 468-470). -/
def isParallelEnabled : List ProjectContext → Bool
  | [] => false
  | c :: _ => c.parallelPlanEnabled

/-- One iteration of the lock-acquisition loop (lines 138-156 / 306-324):
the `ProjectResult` built for one `TryLock` call. -/
def lockAttempt (env : Env) (pctx : ProjectContext) : ProjectResult :=
  match env.tryLock pctx with
  | TryLockOutcome.err msg =>
    { command := CommandName.plan, planSuccess := false
      error := some ("acquiring lock: " ++ msg), failure := ""
      repoRelDir := pctx.repoRelDir, workspace := pctx.workspace
      projectName := pctx.projectName }
  | TryLockOutcome.resp reason =>
    { command := CommandName.plan, planSuccess := false
      error := none, failure := reason
      repoRelDir := pctx.repoRelDir, workspace := pctx.workspace
      projectName := pctx.projectName }

/-- The `projectResults` accumulated by the lock loop: only the attempts
with an error or a non-empty failure reason are kept (lines 157-159). -/
def lockFailures (env : Env) (cmds : List ProjectContext) : List ProjectResult :=
  (cmds.map (lockAttempt env)).filter ProjectResult.hasProblem

/-- The whole locking phase (lines 136-162 / 304-330): when a project locker
is configured, a `TryLock` is attempted for every Plan-kind command and the
failed or erred attempts are collected; otherwise nothing happens. -/
def lockPhase (p : PlanCommandRunner) (env : Env) (projectCmds : List ProjectContext) :
    List Event × List ProjectResult :=
  if p.hasProjectLocker then
    (projectCmds.map Event.tryLock, lockFailures env projectCmds)
  else ([], [])

/-- Modelled from the spec: the sequential Execution Pool
(`runProjectCmds`, declared outside this core) runs every command in input
order, one project's failure never preventing another's execution. -/
def runProjectCmds (env : Env) (cmds : List ProjectContext) : Result :=
  { projectResults := cmds.map env.runPlan, plansDeleted := false, error := none }

/-- Modelled from the spec: the bounded-parallel Execution Pool
(`runProjectCmdsParallelGroups`, declared outside this core) produces the
same set of ProjectResults as the sequential mode; it is embedded with the
same results since no claim depends on result order. -/
def runProjectCmdsParallelGroups (env : Env) (cmds : List ProjectContext) : Result :=
  { projectResults := cmds.map env.runPlan, plansDeleted := false, error := none }

/-- Lines 164-183 / 332-351: if the lock loop collected any failures the
batch result is exactly those failures and the pull's locks are released;
otherwise the Execution Pool runs, in parallel mode when enabled. -/
def execPhase (env : Env) (projectCmds : List ProjectContext)
    (projectResults : List ProjectResult) : Result × List Event :=
  if 0 < projectResults.length then
    ({ projectResults := projectResults, plansDeleted := false, error := none },
     [Event.unlockByPull])
  else if isParallelEnabled projectCmds then
    (runProjectCmdsParallelGroups env projectCmds, [Event.runPool true projectCmds])
  else
    (runProjectCmds env projectCmds, [Event.runPool false projectCmds])

/-- Lines 185-189 / 353-357: when automerge requires all plans to succeed
and the batch has errors, the plans are deleted and `PlansDeleted` is set. -/
def automergePhase (env : Env) (result : Result) : Result × List Event :=
  if env.automergeEnabled && result.HasErrors then
    ({ result with plansDeleted := true }, [Event.deletePlans])
  else (result, [])

/-- The batch result as produced by the lock and execution phases, before
the automerge check. -/
def execResult (p : PlanCommandRunner) (env : Env) (projectCmds : List ProjectContext) : Result :=
  (execPhase env projectCmds (lockPhase p env projectCmds).2).1

/-- The batch result of a pass after the automerge check — the value handed
to `updatePull` and `updateDB`. -/
def finalResult (p : PlanCommandRunner) (env : Env) (projectCmds : List ProjectContext) : Result :=
  (automergePhase env (execResult p env projectCmds)).1

/-- `updateCommitStatus` (lines 398-435): the combined status update (if
any) emitted for one command kind from the persisted pull status. -/
def updateCommitStatusEvents (ps : PullStatus) (commandName : CommandName) : List Event :=
  if commandName == CommandName.plan then
    let numErrored := ps.statusCount ProjectPlanStatus.erroredPlan
    let numSuccess := ps.projects.length - numErrored
    let status := if 0 < numErrored then CommitStatus.failed else CommitStatus.success
    [Event.updateCombinedCount status commandName numSuccess ps.projects.length]
  else if commandName == CommandName.apply then
    let numSuccess := ps.statusCount ProjectPlanStatus.applied +
      ps.statusCount ProjectPlanStatus.plannedNoChanges
    let numErrored := ps.statusCount ProjectPlanStatus.erroredApply
    if 0 < numErrored then
      [Event.updateCombinedCount CommitStatus.failed commandName numSuccess ps.projects.length]
    else if numSuccess < ps.projects.length then
      []
    else
      [Event.updateCombinedCount CommitStatus.success commandName numSuccess ps.projects.length]
  else
    [Event.updateCombinedCount CommitStatus.success commandName 0 ps.projects.length]

/-- The pull status in scope after the `updateDB` call in `runAutoplan`
(lines 193-196): on a write error the Go code only logs, so the variable
keeps its zero value (no projects) and the pass continues. -/
def dbPullStatus (env : Env) (r : Result) : PullStatus :=
  match env.updateDB r.projectResults with
  | Except.error _ => { projects := [] }
  | Except.ok ps => ps

/-- The segment shared verbatim between the two trigger paths (lines
135-196 and 303-364): the lock loop, execution or lock-failure abort, the
automerge check, the comment update, and the persistence write. -/
def corePhase (p : PlanCommandRunner) (env : Env) (projectCmds : List ProjectContext) :
    List Event :=
  (lockPhase p env projectCmds).1
  ++ (execPhase env projectCmds (lockPhase p env projectCmds).2).2
  ++ (automergePhase env (execResult p env projectCmds)).2
  ++ [Event.updatePull (finalResult p env projectCmds),
      Event.updateDBCall (finalResult p env projectCmds).projectResults]

/-- The body of `runAutoplan` once commands are built and the pass is known
non-empty (lines 122-214): pending status, stale-plan cleanup and lock
release, the shared core, the Plan and Apply status updates (computed from
the zero-value pull status when the write failed), and conditional
policy-check dispatch. -/
def autoplanMain (p : PlanCommandRunner) (env : Env)
    (projectCmds policyCheckCmds : List ProjectContext) : List Event :=
  [Event.updateCombined CommitStatus.pending CommandName.plan,
   Event.deletePlans, Event.unlockByPull]
  ++ corePhase p env projectCmds
  ++ updateCommitStatusEvents (dbPullStatus env (finalResult p env projectCmds)) CommandName.plan
  ++ updateCommitStatusEvents (dbPullStatus env (finalResult p env projectCmds)) CommandName.apply
  ++ (if 0 < policyCheckCmds.length &&
        !((finalResult p env projectCmds).HasErrors || (finalResult p env projectCmds).plansDeleted)
      then [Event.runPolicyCheck policyCheckCmds]
      else [])

/-- `runAutoplan` (lines 87-215). -/
def runAutoplan (p : PlanCommandRunner) (env : Env) : List Event :=
  match env.buildCommands with
  | Except.error e =>
    [Event.updateCombined CommitStatus.failed CommandName.plan,
     Event.updatePull { projectResults := [], plansDeleted := false, error := some e }]
  | Except.ok allCmds =>
    if (partitionProjectCmds allCmds).1.length = 0 then
      if !(p.silenceVCSStatusNoPlans || p.silenceVCSStatusNoProjects) then
        [Event.updateCombinedCount CommitStatus.success CommandName.plan 0 0,
         Event.updateCombinedCount CommitStatus.success CommandName.policyCheck 0 0,
         Event.updateCombinedCount CommitStatus.success CommandName.apply 0 0]
      else []
    else
      autoplanMain p env (partitionProjectCmds allCmds).1 (partitionProjectCmds allCmds).2

/-- The zero-project branch of the comment path (lines 250-288). -/
def runNoProjects (p : PlanCommandRunner) (cmd : CommentCommand) (env : Env) : List Event :=
  if !p.silenceVCSStatusNoProjects then
    if cmd.isForSpecificProject then
      match env.getPullStatus with
      | Except.error _ => []
      | Except.ok none =>
        [Event.updateCombinedCount CommitStatus.success CommandName.plan 0 0]
      | Except.ok (some ps) => updateCommitStatusEvents ps CommandName.plan
    else
      [Event.updateCombinedCount CommitStatus.success CommandName.plan 0 0,
       Event.updateCombinedCount CommitStatus.success CommandName.policyCheck 0 0,
       Event.updateCombinedCount CommitStatus.success CommandName.apply 0 0]
  else []

/-- The tail of the comment path after the `updateDB` call (lines 364-387):
on a write error the pass returns at once; on success the Plan and Apply
statuses are updated and policy check is dispatched when the batch produced
results without errors or discarded plans, else the 0/0 PolicyCheck status
is set for an empty generic run. -/
def runPostDB (dbOutcome : Except String PullStatus) (cmd : CommentCommand)
    (projectCmds policyCheckCmds : List ProjectContext) (result : Result) : List Event :=
  match dbOutcome with
  | Except.error _ => []
  | Except.ok ps =>
    updateCommitStatusEvents ps CommandName.plan
    ++ updateCommitStatusEvents ps CommandName.apply
    ++ (if 0 < result.projectResults.length &&
          !(result.HasErrors || result.plansDeleted)
        then [Event.runPolicyCheck policyCheckCmds]
        else if projectCmds.length = 0 && !cmd.isForSpecificProject then
          [Event.updateCombinedCount CommitStatus.success CommandName.policyCheck 0 0]
        else [])

/-- The body of the comment path once commands are built and the
zero-project branch is skipped (lines 290-387). -/
def runMain (p : PlanCommandRunner) (cmd : CommentCommand) (env : Env)
    (projectCmds policyCheckCmds : List ProjectContext) : List Event :=
  (if !cmd.isForSpecificProject then [Event.deletePlans, Event.unlockByPull] else [])
  ++ corePhase p env projectCmds
  ++ runPostDB (env.updateDB (finalResult p env projectCmds).projectResults)
      cmd projectCmds policyCheckCmds (finalResult p env projectCmds)

/-- `run` (lines 217-388), the comment-trigger path. -/
def run (p : PlanCommandRunner) (cmd : CommentCommand) (env : Env) : List Event :=
  [Event.fetchPullReqStatus]
  ++ (if p.discardApprovalOnPlan then [Event.discardReviews] else [])
  ++ [Event.updateCombined CommitStatus.pending CommandName.plan]
  ++ match env.buildCommands with
     | Except.error e =>
       [Event.updateCombined CommitStatus.failed CommandName.plan,
        Event.updatePull { projectResults := [], plansDeleted := false, error := some e }]
     | Except.ok allCmds =>
       if allCmds.length = 0 && p.SilenceNoProjects then
         runNoProjects p cmd env
       else
         runMain p cmd env (partitionProjectCmds allCmds).1 (partitionProjectCmds allCmds).2

/-- `Run` (lines 390-396): trigger dispatch. -/
def Run (p : PlanCommandRunner) (trigger : Trigger) (cmd : CommentCommand) (env : Env) :
    List Event :=
  if trigger = Trigger.auto then runAutoplan p env else run p cmd env

/-- The execution-pool invocations recorded in a trace. -/
def poolCalls : List Event → List (Bool × List ProjectContext)
  | [] => []
  | Event.runPool b cs :: t => (b, cs) :: poolCalls t
  | _ :: t => poolCalls t

/-- The batch results handed to `pullUpdater.updatePull` in a trace. -/
def pullUpdates : List Event → List Result
  | [] => []
  | Event.updatePull r :: t => r :: pullUpdates t
  | _ :: t => pullUpdates t

/-- The project contexts for which `TryLock` was called, in order. -/
def tryLockCmds : List Event → List ProjectContext
  | [] => []
  | Event.tryLock c :: t => c :: tryLockCmds t
  | _ :: t => tryLockCmds t

/-- The command lists handed to the policy-check runner in a trace. -/
def policyDispatches : List Event → List (List ProjectContext)
  | [] => []
  | Event.runPolicyCheck cs :: t => cs :: policyDispatches t
  | _ :: t => policyDispatches t

/-- The commit-status updates of a trace. -/
def statusUpdates : List Event → List Event
  | [] => []
  | Event.updateCombined s n :: t => Event.updateCombined s n :: statusUpdates t
  | Event.updateCombinedCount s n a b :: t =>
    Event.updateCombinedCount s n a b :: statusUpdates t
  | _ :: t => statusUpdates t

/-- How many times `UnlockByPull` was called. -/
def unlockCount : List Event → Nat
  | [] => 0
  | Event.unlockByPull :: t => unlockCount t + 1
  | _ :: t => unlockCount t

/-- How many times the pull's plan artifacts were deleted. -/
def deleteCount : List Event → Nat
  | [] => 0
  | Event.deletePlans :: t => deleteCount t + 1
  | _ :: t => deleteCount t

/-- The events of a pass that follow its persistence write. -/
def eventsAfterDBWrite : List Event → List Event
  | [] => []
  | Event.updateDBCall _ :: t => t
  | _ :: t => eventsAfterDBWrite t

/-- `dbOk` discriminates the persistence write's outcome. -/
def dbOk : Except String PullStatus → Bool
  | Except.ok _ => true
  | Except.error _ => false

/-! Concrete inputs used to instantiate the theorems below. -/

/-- A Plan-kind project command. -/
def planCtx : ProjectContext :=
  { commandName := CommandName.plan, repoRelDir := "d1", workspace := "default"
    projectName := "", repoLocking := true, parallelPlanEnabled := false }

/-- A PolicyCheck-kind project command for the same project. -/
def policyCtx : ProjectContext :=
  { planCtx with commandName := CommandName.policyCheck }

/-- A successful planning outcome for a command. -/
def okPlanResult (c : ProjectContext) : ProjectResult :=
  { command := CommandName.plan, planSuccess := true, error := none, failure := ""
    repoRelDir := c.repoRelDir, workspace := c.workspace, projectName := c.projectName }

/-- A benign environment: one Plan command, locks acquired, plans succeed,
persistence succeeds. -/
def baseEnv : Env :=
  { buildCommands := Except.ok [planCtx]
    tryLock := fun _ => TryLockOutcome.resp ""
    runPlan := okPlanResult
    automergeEnabled := false
    updateDB := fun rs => Except.ok { projects := rs.map (fun _ => ProjectPlanStatus.planned) }
    getPullStatus := Except.ok none }

/-- A runner configuration with a project locker and no silencing. -/
def baseRunner : PlanCommandRunner :=
  { silenceVCSStatusNoPlans := false, silenceVCSStatusNoProjects := false
    SilenceNoProjects := false, discardApprovalOnPlan := false, hasProjectLocker := true }

/-- A generic (whole-pull) comment command. -/
def genericCmd : CommentCommand := { isForSpecificProject := false }

/-- A comment command naming one specific project. -/
def specificCmd : CommentCommand := { isForSpecificProject := true }

/-- Environment whose lock backend reports every lock as held elsewhere. -/
def lockHeldEnv : Env :=
  { baseEnv with tryLock := fun _ => TryLockOutcome.resp "lock held by other pull" }

/-- Environment that builds one Plan and one PolicyCheck command. -/
def mixedEnv : Env :=
  { baseEnv with buildCommands := Except.ok [planCtx, policyCtx] }

/-- Environment whose persistence write fails. -/
def dbFailEnv : Env :=
  { baseEnv with updateDB := fun _ => Except.error "db down" }

/-- Environment whose command builder yields no projects. -/
def emptyBuildEnv : Env :=
  { baseEnv with buildCommands := Except.ok [] }

/-- Environment whose command builder fails. -/
def buildFailEnv : Env :=
  { baseEnv with buildCommands := Except.error "building commands" }

/-- Environment for the stuck-pending scenario: no projects built and the
persisted pull status cannot be fetched. -/
def noStatusEnv : Env :=
  { baseEnv with buildCommands := Except.ok [], getPullStatus := Except.error "not reachable" }

/-- Runner that silences comment passes with no projects. -/
def silentRunner : PlanCommandRunner :=
  { baseRunner with SilenceNoProjects := true }

/-! Helper lemmas: how each trace extractor acts on list concatenation and
on the symbolic segments produced by the phases. -/

theorem poolCalls_append (l1 l2 : List Event) :
    poolCalls (l1 ++ l2) = poolCalls l1 ++ poolCalls l2 := by
  induction l1 with
  | nil => rfl
  | cons x t ih => cases x <;> simp [poolCalls, ih]

theorem pullUpdates_append (l1 l2 : List Event) :
    pullUpdates (l1 ++ l2) = pullUpdates l1 ++ pullUpdates l2 := by
  induction l1 with
  | nil => rfl
  | cons x t ih => cases x <;> simp [pullUpdates, ih]

theorem tryLockCmds_append (l1 l2 : List Event) :
    tryLockCmds (l1 ++ l2) = tryLockCmds l1 ++ tryLockCmds l2 := by
  induction l1 with
  | nil => rfl
  | cons x t ih => cases x <;> simp [tryLockCmds, ih]

theorem policyDispatches_append (l1 l2 : List Event) :
    policyDispatches (l1 ++ l2) = policyDispatches l1 ++ policyDispatches l2 := by
  induction l1 with
  | nil => rfl
  | cons x t ih => cases x <;> simp [policyDispatches, ih]

theorem statusUpdates_append (l1 l2 : List Event) :
    statusUpdates (l1 ++ l2) = statusUpdates l1 ++ statusUpdates l2 := by
  induction l1 with
  | nil => rfl
  | cons x t ih => cases x <;> simp [statusUpdates, ih]

theorem unlockCount_append (l1 l2 : List Event) :
    unlockCount (l1 ++ l2) = unlockCount l1 + unlockCount l2 := by
  induction l1 with
  | nil => simp [unlockCount]
  | cons x t ih => cases x <;> simp [unlockCount, ih, Nat.add_right_comm]

theorem deleteCount_append (l1 l2 : List Event) :
    deleteCount (l1 ++ l2) = deleteCount l1 + deleteCount l2 := by
  induction l1 with
  | nil => simp [deleteCount]
  | cons x t ih => cases x <;> simp [deleteCount, ih, Nat.add_right_comm]

theorem poolCalls_mapTryLock (pc : List ProjectContext) :
    poolCalls (pc.map Event.tryLock) = [] := by
  induction pc with
  | nil => rfl
  | cons c t ih => simp [poolCalls, ih]

theorem pullUpdates_mapTryLock (pc : List ProjectContext) :
    pullUpdates (pc.map Event.tryLock) = [] := by
  induction pc with
  | nil => rfl
  | cons c t ih => simp [pullUpdates, ih]

theorem tryLockCmds_mapTryLock (pc : List ProjectContext) :
    tryLockCmds (pc.map Event.tryLock) = pc := by
  induction pc with
  | nil => rfl
  | cons c t ih => simp [tryLockCmds, ih]

theorem policyDispatches_mapTryLock (pc : List ProjectContext) :
    policyDispatches (pc.map Event.tryLock) = [] := by
  induction pc with
  | nil => rfl
  | cons c t ih => simp [policyDispatches, ih]

theorem statusUpdates_mapTryLock (pc : List ProjectContext) :
    statusUpdates (pc.map Event.tryLock) = [] := by
  induction pc with
  | nil => rfl
  | cons c t ih => simp [statusUpdates, ih]

theorem unlockCount_mapTryLock (pc : List ProjectContext) :
    unlockCount (pc.map Event.tryLock) = 0 := by
  induction pc with
  | nil => rfl
  | cons c t ih => simp [unlockCount, ih]

theorem deleteCount_mapTryLock (pc : List ProjectContext) :
    deleteCount (pc.map Event.tryLock) = 0 := by
  induction pc with
  | nil => rfl
  | cons c t ih => simp [deleteCount, ih]

theorem updateCommitStatusEvents_cases (ps : PullStatus) (n : CommandName) :
    updateCommitStatusEvents ps n = [] ∨
    ∃ s a b, updateCommitStatusEvents ps n = [Event.updateCombinedCount s n a b] := by
  unfold updateCommitStatusEvents
  dsimp only
  split_ifs <;> first
    | exact Or.inl rfl
    | exact Or.inr ⟨_, _, _, rfl⟩

theorem poolCalls_ucse (ps : PullStatus) (n : CommandName) :
    poolCalls (updateCommitStatusEvents ps n) = [] := by
  rcases updateCommitStatusEvents_cases ps n with h | ⟨s, a, b, h⟩ <;> simp [h, poolCalls]

theorem pullUpdates_ucse (ps : PullStatus) (n : CommandName) :
    pullUpdates (updateCommitStatusEvents ps n) = [] := by
  rcases updateCommitStatusEvents_cases ps n with h | ⟨s, a, b, h⟩ <;> simp [h, pullUpdates]

theorem tryLockCmds_ucse (ps : PullStatus) (n : CommandName) :
    tryLockCmds (updateCommitStatusEvents ps n) = [] := by
  rcases updateCommitStatusEvents_cases ps n with h | ⟨s, a, b, h⟩ <;> simp [h, tryLockCmds]

theorem policyDispatches_ucse (ps : PullStatus) (n : CommandName) :
    policyDispatches (updateCommitStatusEvents ps n) = [] := by
  rcases updateCommitStatusEvents_cases ps n with h | ⟨s, a, b, h⟩ <;>
    simp [h, policyDispatches]

theorem unlockCount_ucse (ps : PullStatus) (n : CommandName) :
    unlockCount (updateCommitStatusEvents ps n) = 0 := by
  rcases updateCommitStatusEvents_cases ps n with h | ⟨s, a, b, h⟩ <;> simp [h, unlockCount]

theorem deleteCount_ucse (ps : PullStatus) (n : CommandName) :
    deleteCount (updateCommitStatusEvents ps n) = 0 := by
  rcases updateCommitStatusEvents_cases ps n with h | ⟨s, a, b, h⟩ <;> simp [h, deleteCount]

theorem statusUpdates_ucse (ps : PullStatus) (n : CommandName) :
    statusUpdates (updateCommitStatusEvents ps n) = updateCommitStatusEvents ps n := by
  rcases updateCommitStatusEvents_cases ps n with h | ⟨s, a, b, h⟩ <;>
    simp [h, statusUpdates]

/-! Phase-shape lemmas. -/

theorem lockPhase_locker (p : PlanCommandRunner) (env : Env) (pc : List ProjectContext)
    (h : p.hasProjectLocker = true) :
    lockPhase p env pc = (pc.map Event.tryLock, lockFailures env pc) := by
  unfold lockPhase
  rw [if_pos h]

theorem execPhase_fail (env : Env) (pc : List ProjectContext) (prs : List ProjectResult)
    (h : prs ≠ []) :
    execPhase env pc prs =
      ({ projectResults := prs, plansDeleted := false, error := none },
       [Event.unlockByPull]) := by
  unfold execPhase
  rw [if_pos (List.length_pos.2 h)]

theorem execResult_plansDeleted (p : PlanCommandRunner) (env : Env)
    (pc : List ProjectContext) : (execResult p env pc).plansDeleted = false := by
  unfold execResult execPhase
  split_ifs <;> rfl

theorem execResult_error (p : PlanCommandRunner) (env : Env) (pc : List ProjectContext) :
    (execResult p env pc).error = none := by
  unfold execResult execPhase
  split_ifs <;> rfl

theorem execResult_fail (p : PlanCommandRunner) (env : Env) (pc : List ProjectContext)
    (hl : p.hasProjectLocker = true) (hf : lockFailures env pc ≠ []) :
    execResult p env pc =
      { projectResults := lockFailures env pc, plansDeleted := false, error := none } := by
  unfold execResult
  rw [lockPhase_locker p env pc hl]
  show (execPhase env pc (lockFailures env pc)).1 = _
  rw [execPhase_fail env pc _ hf]

theorem automergePhase_projectResults (env : Env) (r : Result) :
    (automergePhase env r).1.projectResults = r.projectResults := by
  unfold automergePhase
  split <;> rfl

theorem automergePhase_error (env : Env) (r : Result) :
    (automergePhase env r).1.error = r.error := by
  unfold automergePhase
  split <;> rfl

theorem automergePhase_hasErrors (env : Env) (r : Result) :
    (automergePhase env r).1.HasErrors = r.HasErrors := by
  unfold Result.HasErrors
  rw [automergePhase_projectResults, automergePhase_error]

theorem automergePhase_plansDeleted (env : Env) (r : Result) (h : r.plansDeleted = false) :
    (automergePhase env r).1.plansDeleted = (env.automergeEnabled && r.HasErrors) := by
  unfold automergePhase
  split
  case isTrue hc => exact hc.symm
  case isFalse hc =>
    simp only [Bool.not_eq_true] at hc
    rw [h, hc]

theorem automergePhase_snd (env : Env) (r : Result) :
    (automergePhase env r).2 =
      (if env.automergeEnabled && r.HasErrors then [Event.deletePlans] else []) := by
  unfold automergePhase
  split <;> simp_all

theorem finalResult_projectResults (p : PlanCommandRunner) (env : Env)
    (pc : List ProjectContext) :
    (finalResult p env pc).projectResults = (execResult p env pc).projectResults :=
  automergePhase_projectResults env (execResult p env pc)

theorem finalResult_hasErrors (p : PlanCommandRunner) (env : Env)
    (pc : List ProjectContext) :
    (finalResult p env pc).HasErrors = (execResult p env pc).HasErrors :=
  automergePhase_hasErrors env (execResult p env pc)

theorem finalResult_plansDeleted (p : PlanCommandRunner) (env : Env)
    (pc : List ProjectContext) :
    (finalResult p env pc).plansDeleted =
      (env.automergeEnabled && (execResult p env pc).HasErrors) :=
  automergePhase_plansDeleted env (execResult p env pc) (execResult_plansDeleted p env pc)

theorem hasErrors_of_lockFailures (env : Env) (pc : List ProjectContext)
    (hf : lockFailures env pc ≠ []) :
    Result.HasErrors
      { projectResults := lockFailures env pc, plansDeleted := false, error := none } = true := by
  unfold Result.HasErrors
  simp only [Option.isSome_none, Bool.false_or]
  rw [List.any_eq_true]
  obtain ⟨r, hr⟩ := List.exists_mem_of_ne_nil _ hf
  unfold lockFailures at hr
  exact ⟨r, by unfold lockFailures; exact hr, (List.mem_filter.1 hr).2⟩

/-! Extractor lemmas about the remaining symbolic segments. -/

theorem lockPhase_fst_cases (p : PlanCommandRunner) (env : Env) (pc : List ProjectContext) :
    (lockPhase p env pc).1 = pc.map Event.tryLock ∨ (lockPhase p env pc).1 = [] := by
  unfold lockPhase
  split
  · exact Or.inl rfl
  · exact Or.inr rfl

theorem execPhase_snd_cases (env : Env) (pc : List ProjectContext)
    (prs : List ProjectResult) :
    (execPhase env pc prs).2 = [Event.unlockByPull] ∨
    (execPhase env pc prs).2 = [Event.runPool true pc] ∨
    (execPhase env pc prs).2 = [Event.runPool false pc] := by
  unfold execPhase
  split_ifs
  · exact Or.inl rfl
  · exact Or.inr (Or.inl rfl)
  · exact Or.inr (Or.inr rfl)

theorem automergePhase_snd_cases (env : Env) (r : Result) :
    (automergePhase env r).2 = [Event.deletePlans] ∨ (automergePhase env r).2 = [] := by
  unfold automergePhase
  split
  · exact Or.inl rfl
  · exact Or.inr rfl

theorem pullUpdates_lockPhase (p : PlanCommandRunner) (env : Env)
    (pc : List ProjectContext) : pullUpdates (lockPhase p env pc).1 = [] := by
  rcases lockPhase_fst_cases p env pc with h | h <;> rw [h]
  · exact pullUpdates_mapTryLock pc
  · rfl

theorem poolCalls_lockPhase (p : PlanCommandRunner) (env : Env)
    (pc : List ProjectContext) : poolCalls (lockPhase p env pc).1 = [] := by
  rcases lockPhase_fst_cases p env pc with h | h <;> rw [h]
  · exact poolCalls_mapTryLock pc
  · rfl

theorem policyDispatches_lockPhase (p : PlanCommandRunner) (env : Env)
    (pc : List ProjectContext) : policyDispatches (lockPhase p env pc).1 = [] := by
  rcases lockPhase_fst_cases p env pc with h | h <;> rw [h]
  · exact policyDispatches_mapTryLock pc
  · rfl

theorem statusUpdates_lockPhase (p : PlanCommandRunner) (env : Env)
    (pc : List ProjectContext) : statusUpdates (lockPhase p env pc).1 = [] := by
  rcases lockPhase_fst_cases p env pc with h | h <;> rw [h]
  · exact statusUpdates_mapTryLock pc
  · rfl

theorem unlockCount_lockPhase (p : PlanCommandRunner) (env : Env)
    (pc : List ProjectContext) : unlockCount (lockPhase p env pc).1 = 0 := by
  rcases lockPhase_fst_cases p env pc with h | h <;> rw [h]
  · exact unlockCount_mapTryLock pc
  · rfl

theorem deleteCount_lockPhase (p : PlanCommandRunner) (env : Env)
    (pc : List ProjectContext) : deleteCount (lockPhase p env pc).1 = 0 := by
  rcases lockPhase_fst_cases p env pc with h | h <;> rw [h]
  · exact deleteCount_mapTryLock pc
  · rfl

theorem pullUpdates_execPhase (env : Env) (pc : List ProjectContext)
    (prs : List ProjectResult) : pullUpdates (execPhase env pc prs).2 = [] := by
  rcases execPhase_snd_cases env pc prs with h | h | h <;> rw [h] <;> rfl

theorem tryLockCmds_execPhase (env : Env) (pc : List ProjectContext)
    (prs : List ProjectResult) : tryLockCmds (execPhase env pc prs).2 = [] := by
  rcases execPhase_snd_cases env pc prs with h | h | h <;> rw [h] <;> rfl

theorem policyDispatches_execPhase (env : Env) (pc : List ProjectContext)
    (prs : List ProjectResult) : policyDispatches (execPhase env pc prs).2 = [] := by
  rcases execPhase_snd_cases env pc prs with h | h | h <;> rw [h] <;> rfl

theorem statusUpdates_execPhase (env : Env) (pc : List ProjectContext)
    (prs : List ProjectResult) : statusUpdates (execPhase env pc prs).2 = [] := by
  rcases execPhase_snd_cases env pc prs with h | h | h <;> rw [h] <;> rfl

theorem deleteCount_execPhase (env : Env) (pc : List ProjectContext)
    (prs : List ProjectResult) : deleteCount (execPhase env pc prs).2 = 0 := by
  rcases execPhase_snd_cases env pc prs with h | h | h <;> rw [h] <;> rfl

theorem pullUpdates_automerge (env : Env) (r : Result) :
    pullUpdates (automergePhase env r).2 = [] := by
  rcases automergePhase_snd_cases env r with h | h <;> rw [h] <;> rfl

theorem poolCalls_automerge (env : Env) (r : Result) :
    poolCalls (automergePhase env r).2 = [] := by
  rcases automergePhase_snd_cases env r with h | h <;> rw [h] <;> rfl

theorem tryLockCmds_automerge (env : Env) (r : Result) :
    tryLockCmds (automergePhase env r).2 = [] := by
  rcases automergePhase_snd_cases env r with h | h <;> rw [h] <;> rfl

theorem policyDispatches_automerge (env : Env) (r : Result) :
    policyDispatches (automergePhase env r).2 = [] := by
  rcases automergePhase_snd_cases env r with h | h <;> rw [h] <;> rfl

theorem statusUpdates_automerge (env : Env) (r : Result) :
    statusUpdates (automergePhase env r).2 = [] := by
  rcases automergePhase_snd_cases env r with h | h <;> rw [h] <;> rfl

theorem unlockCount_automerge (env : Env) (r : Result) :
    unlockCount (automergePhase env r).2 = 0 := by
  rcases automergePhase_snd_cases env r with h | h <;> rw [h] <;> rfl

theorem deleteCount_automerge (env : Env) (r : Result) :
    deleteCount (automergePhase env r).2 =
      (if env.automergeEnabled && r.HasErrors then 1 else 0) := by
  rw [automergePhase_snd]
  split <;> rfl

/-! Lemmas about the shared core segment. -/

theorem corePhase_fail (p : PlanCommandRunner) (env : Env) (pc : List ProjectContext)
    (hl : p.hasProjectLocker = true) (hf : lockFailures env pc ≠ []) :
    corePhase p env pc =
      pc.map Event.tryLock ++ [Event.unlockByPull]
      ++ (automergePhase env (execResult p env pc)).2
      ++ [Event.updatePull (finalResult p env pc),
          Event.updateDBCall (finalResult p env pc).projectResults] := by
  unfold corePhase
  rw [lockPhase_locker p env pc hl]
  show pc.map Event.tryLock ++ (execPhase env pc (lockFailures env pc)).2 ++ _ ++ _ = _
  rw [execPhase_fail env pc _ hf]

theorem pullUpdates_corePhase (p : PlanCommandRunner) (env : Env)
    (pc : List ProjectContext) :
    pullUpdates (corePhase p env pc) = [finalResult p env pc] := by
  unfold corePhase
  simp only [pullUpdates_append, pullUpdates_lockPhase, pullUpdates_execPhase,
    pullUpdates_automerge, List.nil_append]
  rfl

theorem tryLockCmds_corePhase (p : PlanCommandRunner) (env : Env)
    (pc : List ProjectContext) (hl : p.hasProjectLocker = true) :
    tryLockCmds (corePhase p env pc) = pc := by
  unfold corePhase
  rw [lockPhase_locker p env pc hl]
  show tryLockCmds (pc.map Event.tryLock ++
    (execPhase env pc (lockFailures env pc)).2 ++ _ ++ _) = pc
  simp only [tryLockCmds_append, tryLockCmds_mapTryLock, tryLockCmds_execPhase,
    tryLockCmds_automerge, List.append_nil]
  simp [tryLockCmds]

theorem policyDispatches_corePhase (p : PlanCommandRunner) (env : Env)
    (pc : List ProjectContext) :
    policyDispatches (corePhase p env pc) = [] := by
  unfold corePhase
  simp only [policyDispatches_append, policyDispatches_lockPhase,
    policyDispatches_execPhase, policyDispatches_automerge, List.nil_append]
  rfl

theorem statusUpdates_corePhase (p : PlanCommandRunner) (env : Env)
    (pc : List ProjectContext) :
    statusUpdates (corePhase p env pc) = [] := by
  unfold corePhase
  simp only [statusUpdates_append, statusUpdates_lockPhase, statusUpdates_execPhase,
    statusUpdates_automerge, List.nil_append]
  rfl

theorem deleteCount_corePhase (p : PlanCommandRunner) (env : Env)
    (pc : List ProjectContext) :
    deleteCount (corePhase p env pc) =
      (if env.automergeEnabled && (execResult p env pc).HasErrors then 1 else 0) := by
  unfold corePhase
  simp only [deleteCount_append, deleteCount_lockPhase, deleteCount_execPhase,
    deleteCount_automerge]
  have h : deleteCount [Event.updatePull (finalResult p env pc),
      Event.updateDBCall (finalResult p env pc).projectResults] = 0 := rfl
  rw [h]
  omega

theorem poolCalls_corePhase_fail (p : PlanCommandRunner) (env : Env)
    (pc : List ProjectContext) (hl : p.hasProjectLocker = true)
    (hf : lockFailures env pc ≠ []) :
    poolCalls (corePhase p env pc) = [] := by
  rw [corePhase_fail p env pc hl hf]
  simp only [poolCalls_append, poolCalls_mapTryLock, poolCalls_automerge, List.nil_append]
  rfl

theorem unlockCount_corePhase_fail (p : PlanCommandRunner) (env : Env)
    (pc : List ProjectContext) (hl : p.hasProjectLocker = true)
    (hf : lockFailures env pc ≠ []) :
    unlockCount (corePhase p env pc) = 1 := by
  rw [corePhase_fail p env pc hl hf]
  simp only [unlockCount_append, unlockCount_mapTryLock, unlockCount_automerge]
  rfl

/-! Locating the persistence write in a trace. -/

theorem no_dbWrite_mapTryLock (pc : List ProjectContext) (rs : List ProjectResult) :
    Event.updateDBCall rs ∉ pc.map Event.tryLock := by
  intro h
  obtain ⟨c, _, hc⟩ := List.mem_map.1 h
  cases hc

theorem eventsAfterDBWrite_append (l1 l2 : List Event)
    (h : ∀ rs, Event.updateDBCall rs ∉ l1) :
    eventsAfterDBWrite (l1 ++ l2) = eventsAfterDBWrite l2 := by
  induction l1 with
  | nil => rfl
  | cons x t ih =>
    have hx : ∀ rs, Event.updateDBCall rs ∉ t :=
      fun rs hrs => h rs (List.mem_cons_of_mem x hrs)
    cases x
    case updateDBCall rs => exact absurd (List.mem_cons_self _ t) (h rs)
    all_goals simpa [eventsAfterDBWrite] using ih hx

theorem no_dbWrite_lockPhase (p : PlanCommandRunner) (env : Env) (pc : List ProjectContext)
    (rs : List ProjectResult) : Event.updateDBCall rs ∉ (lockPhase p env pc).1 := by
  rcases lockPhase_fst_cases p env pc with h | h <;> rw [h]
  · exact no_dbWrite_mapTryLock pc rs
  · simp

theorem no_dbWrite_execPhase (env : Env) (pc : List ProjectContext)
    (prs : List ProjectResult) (rs : List ProjectResult) :
    Event.updateDBCall rs ∉ (execPhase env pc prs).2 := by
  rcases execPhase_snd_cases env pc prs with h | h | h <;> rw [h] <;> simp

theorem no_dbWrite_automerge (env : Env) (r : Result) (rs : List ProjectResult) :
    Event.updateDBCall rs ∉ (automergePhase env r).2 := by
  rcases automergePhase_snd_cases env r with h | h <;> rw [h] <;> simp

theorem eventsAfterDBWrite_corePhase (p : PlanCommandRunner) (env : Env)
    (pc : List ProjectContext) (rest : List Event) :
    eventsAfterDBWrite (corePhase p env pc ++ rest) = rest := by
  unfold corePhase
  simp only [List.append_assoc]
  rw [eventsAfterDBWrite_append _ _ (fun rs => no_dbWrite_lockPhase p env pc rs)]
  rw [eventsAfterDBWrite_append _ _ (fun rs => no_dbWrite_execPhase env pc _ rs)]
  rw [eventsAfterDBWrite_append _ _ (fun rs => no_dbWrite_automerge env _ rs)]
  simp [eventsAfterDBWrite]

/-! Lemmas about the post-persistence tail of the comment path. -/

theorem policyDispatches_runPostDB (db : Except String PullStatus) (cmd : CommentCommand)
    (pc pcc : List ProjectContext) (r : Result) :
    policyDispatches (runPostDB db cmd pc pcc r) =
      (if dbOk db && (0 < r.projectResults.length && !(r.HasErrors || r.plansDeleted))
       then [pcc] else []) := by
  cases db with
  | error e => simp [runPostDB, dbOk, policyDispatches]
  | ok ps =>
    simp only [runPostDB, policyDispatches_append, policyDispatches_ucse,
      List.nil_append, dbOk, Bool.true_and]
    cases hA : (0 < r.projectResults.length && !(r.HasErrors || r.plansDeleted))
    · simp only [Bool.false_eq_true, if_false]
      split <;> simp [policyDispatches]
    · simp [policyDispatches]

theorem deleteCount_runPostDB (db : Except String PullStatus) (cmd : CommentCommand)
    (pc pcc : List ProjectContext) (r : Result) :
    deleteCount (runPostDB db cmd pc pcc r) = 0 := by
  cases db with
  | error e => rfl
  | ok ps =>
    simp only [runPostDB, deleteCount_append, deleteCount_ucse]
    split
    · rfl
    · split <;> rfl

theorem pullUpdates_runPostDB (db : Except String PullStatus) (cmd : CommentCommand)
    (pc pcc : List ProjectContext) (r : Result) :
    pullUpdates (runPostDB db cmd pc pcc r) = [] := by
  cases db with
  | error e => rfl
  | ok ps =>
    simp only [runPostDB, pullUpdates_append, pullUpdates_ucse, List.nil_append]
    split
    · rfl
    · split <;> rfl

theorem poolCalls_runPostDB (db : Except String PullStatus) (cmd : CommentCommand)
    (pc pcc : List ProjectContext) (r : Result) :
    poolCalls (runPostDB db cmd pc pcc r) = [] := by
  cases db with
  | error e => rfl
  | ok ps =>
    simp only [runPostDB, poolCalls_append, poolCalls_ucse, List.nil_append]
    split
    · rfl
    · split <;> rfl

theorem tryLockCmds_runPostDB (db : Except String PullStatus) (cmd : CommentCommand)
    (pc pcc : List ProjectContext) (r : Result) :
    tryLockCmds (runPostDB db cmd pc pcc r) = [] := by
  cases db with
  | error e => rfl
  | ok ps =>
    simp only [runPostDB, tryLockCmds_append, tryLockCmds_ucse, List.nil_append]
    split
    · rfl
    · split <;> rfl

theorem unlockCount_runPostDB (db : Except String PullStatus) (cmd : CommentCommand)
    (pc pcc : List ProjectContext) (r : Result) :
    unlockCount (runPostDB db cmd pc pcc r) = 0 := by
  cases db with
  | error e => rfl
  | ok ps =>
    simp only [runPostDB, unlockCount_append, unlockCount_ucse]
    split
    · rfl
    · split <;> rfl

/-! Branch-selection lemmas for the two trigger paths. -/

theorem runAutoplan_buildFail (p : PlanCommandRunner) (env : Env) (e : String)
    (hb : env.buildCommands = Except.error e) :
    runAutoplan p env =
      [Event.updateCombined CommitStatus.failed CommandName.plan,
       Event.updatePull { projectResults := [], plansDeleted := false, error := some e }] := by
  unfold runAutoplan
  simp only [hb]

theorem runAutoplan_zero (p : PlanCommandRunner) (env : Env) (l : List ProjectContext)
    (hb : env.buildCommands = Except.ok l) (h0 : (partitionProjectCmds l).1.length = 0) :
    runAutoplan p env =
      (if !(p.silenceVCSStatusNoPlans || p.silenceVCSStatusNoProjects) then
        [Event.updateCombinedCount CommitStatus.success CommandName.plan 0 0,
         Event.updateCombinedCount CommitStatus.success CommandName.policyCheck 0 0,
         Event.updateCombinedCount CommitStatus.success CommandName.apply 0 0]
       else []) := by
  unfold runAutoplan
  simp only [hb]
  rw [if_pos h0]

theorem runAutoplan_eq_main (p : PlanCommandRunner) (env : Env) (l : List ProjectContext)
    (hb : env.buildCommands = Except.ok l) (hpc : (partitionProjectCmds l).1 ≠ []) :
    runAutoplan p env =
      autoplanMain p env (partitionProjectCmds l).1 (partitionProjectCmds l).2 := by
  unfold runAutoplan
  simp only [hb]
  rw [if_neg (fun h => hpc (List.length_eq_zero.1 h))]

theorem run_buildFail (p : PlanCommandRunner) (cmd : CommentCommand) (env : Env) (e : String)
    (hb : env.buildCommands = Except.error e) :
    run p cmd env =
      [Event.fetchPullReqStatus]
      ++ (if p.discardApprovalOnPlan then [Event.discardReviews] else [])
      ++ [Event.updateCombined CommitStatus.pending CommandName.plan]
      ++ [Event.updateCombined CommitStatus.failed CommandName.plan,
          Event.updatePull { projectResults := [], plansDeleted := false, error := some e }] := by
  unfold run
  simp only [hb]

theorem run_zero (p : PlanCommandRunner) (cmd : CommentCommand) (env : Env)
    (hb : env.buildCommands = Except.ok ([] : List ProjectContext))
    (hs : p.SilenceNoProjects = true) :
    run p cmd env =
      [Event.fetchPullReqStatus]
      ++ (if p.discardApprovalOnPlan then [Event.discardReviews] else [])
      ++ [Event.updateCombined CommitStatus.pending CommandName.plan]
      ++ runNoProjects p cmd env := by
  unfold run
  simp [hb, hs]

theorem run_eq_main (p : PlanCommandRunner) (cmd : CommentCommand) (env : Env)
    (l : List ProjectContext) (hb : env.buildCommands = Except.ok l)
    (hc : (l.length = 0 && p.SilenceNoProjects) = false) :
    run p cmd env =
      [Event.fetchPullReqStatus]
      ++ (if p.discardApprovalOnPlan then [Event.discardReviews] else [])
      ++ [Event.updateCombined CommitStatus.pending CommandName.plan]
      ++ runMain p cmd env (partitionProjectCmds l).1 (partitionProjectCmds l).2 := by
  unfold run
  simp only [hb]
  have hni : ¬ ((decide (l.length = 0) && p.SilenceNoProjects) = true) := by
    rw [hc]
    exact Bool.false_ne_true
  rw [if_neg hni]

theorem silence_cond_false (p : PlanCommandRunner) (l : List ProjectContext) (hl : l ≠ []) :
    (l.length = 0 && p.SilenceNoProjects) = false := by
  simp [List.length_eq_zero, hl]

/-! Locating the persistence write in each path. -/

theorem eventsAfterDBWrite_autoplanMain (p : PlanCommandRunner) (env : Env)
    (pc pcc : List ProjectContext) :
    eventsAfterDBWrite (autoplanMain p env pc pcc) =
      updateCommitStatusEvents (dbPullStatus env (finalResult p env pc)) CommandName.plan
      ++ updateCommitStatusEvents (dbPullStatus env (finalResult p env pc)) CommandName.apply
      ++ (if 0 < pcc.length &&
            !((finalResult p env pc).HasErrors || (finalResult p env pc).plansDeleted)
          then [Event.runPolicyCheck pcc] else []) := by
  unfold autoplanMain
  simp only [List.append_assoc]
  have h3 : ∀ rs, Event.updateDBCall rs ∉
      [Event.updateCombined CommitStatus.pending CommandName.plan,
       Event.deletePlans, Event.unlockByPull] := by
    intro rs h
    simp at h
  rw [eventsAfterDBWrite_append _ _ h3, eventsAfterDBWrite_corePhase p env pc]

theorem eventsAfterDBWrite_runMain (p : PlanCommandRunner) (cmd : CommentCommand)
    (env : Env) (pc pcc : List ProjectContext) :
    eventsAfterDBWrite (runMain p cmd env pc pcc) =
      runPostDB (env.updateDB (finalResult p env pc).projectResults) cmd pc pcc
        (finalResult p env pc) := by
  unfold runMain
  simp only [List.append_assoc]
  have hcl : ∀ rs, Event.updateDBCall rs ∉
      (if !cmd.isForSpecificProject then [Event.deletePlans, Event.unlockByPull] else []) := by
    intro rs
    split <;> simp
  rw [eventsAfterDBWrite_append _ _ hcl]
  exact eventsAfterDBWrite_corePhase p env pc _

theorem eventsAfterDBWrite_run (p : PlanCommandRunner) (cmd : CommentCommand) (env : Env)
    (l : List ProjectContext) (hb : env.buildCommands = Except.ok l)
    (hc : (l.length = 0 && p.SilenceNoProjects) = false) :
    eventsAfterDBWrite (run p cmd env) =
      runPostDB
        (env.updateDB (finalResult p env (partitionProjectCmds l).1).projectResults)
        cmd (partitionProjectCmds l).1 (partitionProjectCmds l).2
        (finalResult p env (partitionProjectCmds l).1) := by
  rw [run_eq_main p cmd env l hb hc]
  simp only [List.append_assoc]
  have h1 : ∀ rs, Event.updateDBCall rs ∉ [Event.fetchPullReqStatus] := by
    intro rs h
    simp at h
  have h2 : ∀ rs, Event.updateDBCall rs ∉
      (if p.discardApprovalOnPlan then [Event.discardReviews] else []) := by
    intro rs
    split <;> simp
  have h3 : ∀ rs, Event.updateDBCall rs ∉
      [Event.updateCombined CommitStatus.pending CommandName.plan] := by
    intro rs h
    simp at h
  rw [eventsAfterDBWrite_append _ _ h1, eventsAfterDBWrite_append _ _ h2,
    eventsAfterDBWrite_append _ _ h3]
  exact eventsAfterDBWrite_runMain p cmd env _ _

/-! Lemmas about the comment path's zero-project branch. -/

theorem tryLockCmds_runNoProjects (p : PlanCommandRunner) (cmd : CommentCommand)
    (env : Env) : tryLockCmds (runNoProjects p cmd env) = [] := by
  unfold runNoProjects
  split_ifs with h1 h2
  · cases hg : env.getPullStatus with
    | error e => simp [tryLockCmds]
    | ok o =>
      cases o with
      | none => simp [tryLockCmds]
      | some ps => simp [tryLockCmds_ucse]
  · rfl
  · rfl

theorem runNoProjects_statusFetchFail (p : PlanCommandRunner) (cmd : CommentCommand)
    (env : Env) (e : String)
    (hv : p.silenceVCSStatusNoProjects = false) (hsp : cmd.isForSpecificProject = true)
    (hg : env.getPullStatus = Except.error e) :
    runNoProjects p cmd env = [] := by
  unfold runNoProjects
  simp [hv, hsp, hg]

theorem ucse_plan_eval (ps : PullStatus) :
    updateCommitStatusEvents ps CommandName.plan =
      [Event.updateCombinedCount
        (if 0 < ps.statusCount ProjectPlanStatus.erroredPlan then CommitStatus.failed
         else CommitStatus.success)
        CommandName.plan
        (ps.projects.length - ps.statusCount ProjectPlanStatus.erroredPlan)
        ps.projects.length] := rfl

theorem ucse_apply_eval (ps : PullStatus) :
    updateCommitStatusEvents ps CommandName.apply =
      (if 0 < ps.statusCount ProjectPlanStatus.erroredApply then
        [Event.updateCombinedCount CommitStatus.failed CommandName.apply
          (ps.statusCount ProjectPlanStatus.applied +
           ps.statusCount ProjectPlanStatus.plannedNoChanges)
          ps.projects.length]
       else if ps.statusCount ProjectPlanStatus.applied +
           ps.statusCount ProjectPlanStatus.plannedNoChanges < ps.projects.length then
        []
       else
        [Event.updateCombinedCount CommitStatus.success CommandName.apply
          (ps.statusCount ProjectPlanStatus.applied +
           ps.statusCount ProjectPlanStatus.plannedNoChanges)
          ps.projects.length]) := rfl

theorem poolCalls_policySeg (b : Bool) (cs : List ProjectContext) :
    poolCalls (if b then [Event.runPolicyCheck cs] else []) = [] := by
  cases b <;> rfl

theorem pullUpdates_policySeg (b : Bool) (cs : List ProjectContext) :
    pullUpdates (if b then [Event.runPolicyCheck cs] else []) = [] := by
  cases b <;> rfl

theorem tryLockCmds_policySeg (b : Bool) (cs : List ProjectContext) :
    tryLockCmds (if b then [Event.runPolicyCheck cs] else []) = [] := by
  cases b <;> rfl

theorem statusUpdates_policySeg (b : Bool) (cs : List ProjectContext) :
    statusUpdates (if b then [Event.runPolicyCheck cs] else []) = [] := by
  cases b <;> rfl

theorem unlockCount_policySeg (b : Bool) (cs : List ProjectContext) :
    unlockCount (if b then [Event.runPolicyCheck cs] else []) = 0 := by
  cases b <;> rfl

theorem deleteCount_policySeg (b : Bool) (cs : List ProjectContext) :
    deleteCount (if b then [Event.runPolicyCheck cs] else []) = 0 := by
  cases b <;> rfl

theorem policyDispatches_policySeg (b : Bool) (cs : List ProjectContext) :
    policyDispatches (if b then [Event.runPolicyCheck cs] else []) =
      (if b then [cs] else []) := by
  cases b <;> rfl

/-! The claims. -/

/-- C8: for every persisted pull status, the combined Plan status update reports a
success-count equal to the total number of projects minus those in an errored-plan
state, a total equal to the number of projects, and an overall status that is failure
exactly when at least one project is in an errored-plan state, success otherwise. -/
theorem claim_C8 (ps : PullStatus) :
    ∃ s, updateCommitStatusEvents ps CommandName.plan =
      [Event.updateCombinedCount s CommandName.plan
        (ps.projects.length - ps.statusCount ProjectPlanStatus.erroredPlan)
        ps.projects.length] ∧
      (s = CommitStatus.failed ↔ 0 < ps.statusCount ProjectPlanStatus.erroredPlan) ∧
      (s = CommitStatus.success ↔ ps.statusCount ProjectPlanStatus.erroredPlan = 0) := by
  by_cases h : 0 < ps.statusCount ProjectPlanStatus.erroredPlan
  · refine ⟨CommitStatus.failed, ?_, ?_, ?_⟩
    · rw [ucse_plan_eval, if_pos h]
    · simp [h]
    · simp
      omega
  · refine ⟨CommitStatus.success, ?_, ?_, ?_⟩
    · rw [ucse_plan_eval, if_neg h]
    · simp
      omega
    · simp
      omega

/-- C5, corrected: the combined Apply status update is omitted exactly when no
project is in the errored-apply state and the success-count (applied plus
planned-with-no-changes) is strictly below the total; when some project has an
errored apply, a failure status IS emitted even though plans remain unapplied. -/
theorem claim_C5 (ps : PullStatus) :
    (updateCommitStatusEvents ps CommandName.apply = [] ↔
      ps.statusCount ProjectPlanStatus.erroredApply = 0 ∧
      ps.statusCount ProjectPlanStatus.applied +
        ps.statusCount ProjectPlanStatus.plannedNoChanges < ps.projects.length) ∧
    (0 < ps.statusCount ProjectPlanStatus.erroredApply →
      updateCommitStatusEvents ps CommandName.apply =
        [Event.updateCombinedCount CommitStatus.failed CommandName.apply
          (ps.statusCount ProjectPlanStatus.applied +
           ps.statusCount ProjectPlanStatus.plannedNoChanges)
          ps.projects.length]) := by
  constructor
  · rw [ucse_apply_eval]
    split_ifs with h1 h2 <;> simp <;> omega
  · intro h
    rw [ucse_apply_eval, if_pos h]

/-- C5 counterexample: a pull status with one errored-apply project and one still
merely planned project has apply success-count 0, strictly below the total 2, yet
`updateCommitStatus` for the Apply kind DOES emit a status update (a failure),
refuting the claim that no update is emitted whenever success-count is below the
total. -/
theorem claim_C5_counterexample :
    PullStatus.statusCount
        { projects := [ProjectPlanStatus.erroredApply, ProjectPlanStatus.planned] }
        ProjectPlanStatus.applied +
      PullStatus.statusCount
        { projects := [ProjectPlanStatus.erroredApply, ProjectPlanStatus.planned] }
        ProjectPlanStatus.plannedNoChanges <
      ({ projects := [ProjectPlanStatus.erroredApply, ProjectPlanStatus.planned] } :
        PullStatus).projects.length ∧
    updateCommitStatusEvents
      { projects := [ProjectPlanStatus.erroredApply, ProjectPlanStatus.planned] }
      CommandName.apply ≠ [] := by
  decide

/-- C5 witness: at a status with a single errored-apply project the corrected claim
yields the concrete failure update 0 of 1. -/
theorem claim_C5_witness :
    updateCommitStatusEvents { projects := [ProjectPlanStatus.erroredApply] }
      CommandName.apply =
      [Event.updateCombinedCount CommitStatus.failed CommandName.apply 0 1] :=
  (claim_C5 { projects := [ProjectPlanStatus.erroredApply] }).2 (by decide)

/-- C7: for every automatic pass whose command building yields zero Plan-kind
projects, the trace is exactly three success 0/0 combined status updates (Plan,
PolicyCheck, Apply) when neither silencing flag is set, and empty when a silencing
flag is set; every emitted event is a status update and no pending status is ever
set in this branch. -/
theorem claim_C7 (p : PlanCommandRunner) (env : Env) (l : List ProjectContext)
    (hb : env.buildCommands = Except.ok l)
    (h0 : (partitionProjectCmds l).1.length = 0) :
    runAutoplan p env =
      (if p.silenceVCSStatusNoPlans || p.silenceVCSStatusNoProjects then []
       else
        [Event.updateCombinedCount CommitStatus.success CommandName.plan 0 0,
         Event.updateCombinedCount CommitStatus.success CommandName.policyCheck 0 0,
         Event.updateCombinedCount CommitStatus.success CommandName.apply 0 0]) ∧
    statusUpdates (runAutoplan p env) = runAutoplan p env ∧
    Event.updateCombined CommitStatus.pending CommandName.plan ∉ runAutoplan p env := by
  have h := runAutoplan_zero p env l hb h0
  refine ⟨?_, ?_, ?_⟩ <;>
    rw [h] <;>
    cases hs : (p.silenceVCSStatusNoPlans || p.silenceVCSStatusNoProjects) <;>
    simp [statusUpdates]

/-- C7 witness: a concrete zero-project automatic pass with no silencing emits
exactly the three 0/0 success updates. -/
theorem claim_C7_witness :
    runAutoplan baseRunner emptyBuildEnv =
      (if baseRunner.silenceVCSStatusNoPlans || baseRunner.silenceVCSStatusNoProjects
       then []
       else
        [Event.updateCombinedCount CommitStatus.success CommandName.plan 0 0,
         Event.updateCombinedCount CommitStatus.success CommandName.policyCheck 0 0,
         Event.updateCombinedCount CommitStatus.success CommandName.apply 0 0]) ∧
    statusUpdates (runAutoplan baseRunner emptyBuildEnv) =
      runAutoplan baseRunner emptyBuildEnv ∧
    Event.updateCombined CommitStatus.pending CommandName.plan ∉
      runAutoplan baseRunner emptyBuildEnv :=
  claim_C7 baseRunner emptyBuildEnv [] rfl (by decide)

/-- C9: when the command builder fails, both trigger paths attempt no locks, never
invoke the execution pool, post exactly one failure result carrying the builder's
error and no project results, and the only status activity is the combined Plan
failure (preceded in the comment path by the pending update set before building). -/
theorem claim_C9 (p : PlanCommandRunner) (cmd : CommentCommand) (env : Env) (e : String)
    (hb : env.buildCommands = Except.error e) :
    (tryLockCmds (runAutoplan p env) = [] ∧
     poolCalls (runAutoplan p env) = [] ∧
     pullUpdates (runAutoplan p env) =
       [{ projectResults := [], plansDeleted := false, error := some e }] ∧
     statusUpdates (runAutoplan p env) =
       [Event.updateCombined CommitStatus.failed CommandName.plan]) ∧
    (tryLockCmds (run p cmd env) = [] ∧
     poolCalls (run p cmd env) = [] ∧
     pullUpdates (run p cmd env) =
       [{ projectResults := [], plansDeleted := false, error := some e }] ∧
     statusUpdates (run p cmd env) =
       [Event.updateCombined CommitStatus.pending CommandName.plan,
        Event.updateCombined CommitStatus.failed CommandName.plan]) := by
  have h1 := runAutoplan_buildFail p env e hb
  have h2 := run_buildFail p cmd env e hb
  refine ⟨⟨?_, ?_, ?_, ?_⟩, ?_, ?_, ?_, ?_⟩ <;>
    first
      | (rw [h1]; rfl)
      | (rw [h2]
         cases hd : p.discardApprovalOnPlan <;>
           simp [hd, tryLockCmds, poolCalls, pullUpdates, statusUpdates])

/-- C9 witness: a concrete builder failure produces the single failure result and
failed Plan status in both paths. -/
theorem claim_C9_witness :
    (tryLockCmds (runAutoplan baseRunner buildFailEnv) = [] ∧
     poolCalls (runAutoplan baseRunner buildFailEnv) = [] ∧
     pullUpdates (runAutoplan baseRunner buildFailEnv) =
       [{ projectResults := [], plansDeleted := false, error := some "building commands" }] ∧
     statusUpdates (runAutoplan baseRunner buildFailEnv) =
       [Event.updateCombined CommitStatus.failed CommandName.plan]) ∧
    (tryLockCmds (run baseRunner genericCmd buildFailEnv) = [] ∧
     poolCalls (run baseRunner genericCmd buildFailEnv) = [] ∧
     pullUpdates (run baseRunner genericCmd buildFailEnv) =
       [{ projectResults := [], plansDeleted := false, error := some "building commands" }] ∧
     statusUpdates (run baseRunner genericCmd buildFailEnv) =
       [Event.updateCombined CommitStatus.pending CommandName.plan,
        Event.updateCombined CommitStatus.failed CommandName.plan]) :=
  claim_C9 baseRunner genericCmd buildFailEnv "building commands" rfl

/-- C10: in the comment path, when the builder returns zero projects,
SilenceNoProjects is on, VCS no-project silencing is off, the command targets a
specific project, and fetching the persisted pull status fails, the pass stops right
after the pending Plan update: the pending update is the only status update of the
whole pass and the trace ends with it, so the pending status is never reset. -/
theorem claim_C10 (p : PlanCommandRunner) (cmd : CommentCommand) (env : Env) (e : String)
    (hb : env.buildCommands = Except.ok ([] : List ProjectContext))
    (hs : p.SilenceNoProjects = true)
    (hv : p.silenceVCSStatusNoProjects = false)
    (hsp : cmd.isForSpecificProject = true)
    (hg : env.getPullStatus = Except.error e) :
    statusUpdates (run p cmd env) =
      [Event.updateCombined CommitStatus.pending CommandName.plan] ∧
    run p cmd env =
      [Event.fetchPullReqStatus]
      ++ (if p.discardApprovalOnPlan then [Event.discardReviews] else [])
      ++ [Event.updateCombined CommitStatus.pending CommandName.plan] := by
  have h := run_zero p cmd env hb hs
  rw [runNoProjects_statusFetchFail p cmd env e hv hsp hg] at h
  refine ⟨?_, ?_⟩ <;>
    rw [h] <;>
    cases hd : p.discardApprovalOnPlan <;>
    simp [hd, statusUpdates]

/-- C1: when a project locker is configured and some lock attempt fails or errs,
the execution pool is never invoked in either path, the batch result posted to the
pull holds exactly the failed or erred lock results and nothing from execution, and
after the lock loop the pull's locks are released via `UnlockByPull` (the second
release of the automatic path and of generic comment passes, whose clear-stale step
already released once; the only release of a targeted comment pass). -/
theorem claim_C1 (p : PlanCommandRunner) (cmd : CommentCommand) (env : Env)
    (l : List ProjectContext)
    (hb : env.buildCommands = Except.ok l)
    (hl : p.hasProjectLocker = true)
    (hf : lockFailures env (partitionProjectCmds l).1 ≠ []) :
    (poolCalls (runAutoplan p env) = [] ∧
     (pullUpdates (runAutoplan p env)).map Result.projectResults =
       [lockFailures env (partitionProjectCmds l).1] ∧
     unlockCount (runAutoplan p env) = 2 ∧
     (∃ t, runAutoplan p env =
        [Event.updateCombined CommitStatus.pending CommandName.plan,
         Event.deletePlans, Event.unlockByPull]
        ++ (partitionProjectCmds l).1.map Event.tryLock
        ++ [Event.unlockByPull] ++ t)) ∧
    (poolCalls (run p cmd env) = [] ∧
     (pullUpdates (run p cmd env)).map Result.projectResults =
       [lockFailures env (partitionProjectCmds l).1] ∧
     unlockCount (run p cmd env) = (if cmd.isForSpecificProject then 1 else 2) ∧
     (∃ t, run p cmd env =
        [Event.fetchPullReqStatus]
        ++ (if p.discardApprovalOnPlan then [Event.discardReviews] else [])
        ++ [Event.updateCombined CommitStatus.pending CommandName.plan]
        ++ (if !cmd.isForSpecificProject then
              [Event.deletePlans, Event.unlockByPull] else [])
        ++ (partitionProjectCmds l).1.map Event.tryLock
        ++ [Event.unlockByPull] ++ t)) := by
  have hpc : (partitionProjectCmds l).1 ≠ [] := by
    intro hz
    rw [hz] at hf
    exact hf rfl
  have hln : l ≠ [] := by
    intro hz
    rw [hz] at hpc
    exact hpc rfl
  have hA := runAutoplan_eq_main p env l hb hpc
  have hR := run_eq_main p cmd env l hb (silence_cond_false p l hln)
  refine ⟨⟨?_, ?_, ?_, ?_⟩, ?_, ?_, ?_, ?_⟩
  · rw [hA]
    unfold autoplanMain
    simp only [poolCalls_append, poolCalls_corePhase_fail p env _ hl hf, poolCalls_ucse,
      poolCalls, List.cons_append, List.nil_append, List.append_nil, List.append_eq]
    split <;> rfl
  · rw [hA]
    unfold autoplanMain
    simp only [pullUpdates_append, pullUpdates_corePhase, pullUpdates_ucse,
      pullUpdates, List.cons_append, List.nil_append, List.append_nil, List.append_eq]
    rw [show pullUpdates
        (if 0 < (partitionProjectCmds l).2.length &&
            !((finalResult p env (partitionProjectCmds l).1).HasErrors ||
              (finalResult p env (partitionProjectCmds l).1).plansDeleted)
         then [Event.runPolicyCheck (partitionProjectCmds l).2] else []) = []
      from by split <;> rfl]
    simp only [List.map_cons, List.map_nil]
    rw [finalResult_projectResults, execResult_fail p env _ hl hf]
  · rw [hA]
    unfold autoplanMain
    simp only [unlockCount_append, unlockCount_corePhase_fail p env _ hl hf,
      unlockCount_ucse, unlockCount, List.cons_append, List.nil_append, List.append_nil,
      List.append_eq]
    rw [show unlockCount
        (if 0 < (partitionProjectCmds l).2.length &&
            !((finalResult p env (partitionProjectCmds l).1).HasErrors ||
              (finalResult p env (partitionProjectCmds l).1).plansDeleted)
         then [Event.runPolicyCheck (partitionProjectCmds l).2] else []) = 0
      from by split <;> rfl]
  · refine ⟨(automergePhase env (execResult p env (partitionProjectCmds l).1)).2
      ++ [Event.updatePull (finalResult p env (partitionProjectCmds l).1),
          Event.updateDBCall
            (finalResult p env (partitionProjectCmds l).1).projectResults]
      ++ updateCommitStatusEvents
          (dbPullStatus env (finalResult p env (partitionProjectCmds l).1))
          CommandName.plan
      ++ updateCommitStatusEvents
          (dbPullStatus env (finalResult p env (partitionProjectCmds l).1))
          CommandName.apply
      ++ (if 0 < (partitionProjectCmds l).2.length &&
            !((finalResult p env (partitionProjectCmds l).1).HasErrors ||
              (finalResult p env (partitionProjectCmds l).1).plansDeleted)
          then [Event.runPolicyCheck (partitionProjectCmds l).2] else []), ?_⟩
    rw [hA]
    unfold autoplanMain
    rw [corePhase_fail p env _ hl hf]
    simp [List.append_assoc]
  · rw [hR]
    unfold runMain
    simp only [poolCalls_append, poolCalls_corePhase_fail p env _ hl hf,
      poolCalls_runPostDB, poolCalls, List.cons_append, List.nil_append, List.append_nil,
      List.append_eq]
    cases hd : p.discardApprovalOnPlan <;>
      cases hsp : cmd.isForSpecificProject <;>
      simp [poolCalls]
  · rw [hR]
    unfold runMain
    simp only [pullUpdates_append, pullUpdates_corePhase, pullUpdates_runPostDB,
      pullUpdates, List.cons_append, List.nil_append, List.append_nil, List.append_eq]
    cases hd : p.discardApprovalOnPlan <;>
      cases hsp : cmd.isForSpecificProject <;>
      simp [pullUpdates, finalResult_projectResults, execResult_fail p env _ hl hf]
  · rw [hR]
    unfold runMain
    simp only [unlockCount_append, unlockCount_corePhase_fail p env _ hl hf,
      unlockCount_runPostDB, unlockCount, List.cons_append, List.nil_append,
      List.append_nil, List.append_eq]
    cases hd : p.discardApprovalOnPlan <;>
      cases hsp : cmd.isForSpecificProject <;>
      simp [unlockCount]
  · refine ⟨(automergePhase env (execResult p env (partitionProjectCmds l).1)).2
      ++ [Event.updatePull (finalResult p env (partitionProjectCmds l).1),
          Event.updateDBCall
            (finalResult p env (partitionProjectCmds l).1).projectResults]
      ++ runPostDB
          (env.updateDB (finalResult p env (partitionProjectCmds l).1).projectResults)
          cmd (partitionProjectCmds l).1 (partitionProjectCmds l).2
          (finalResult p env (partitionProjectCmds l).1), ?_⟩
    rw [hR]
    unfold runMain
    rw [corePhase_fail p env _ hl hf]
    simp [List.append_assoc]

/-- C1 witness: a concrete automatic and comment pass in which the single project's
lock is held elsewhere. -/
theorem claim_C1_witness :
    (poolCalls (runAutoplan baseRunner lockHeldEnv) = [] ∧
     (pullUpdates (runAutoplan baseRunner lockHeldEnv)).map Result.projectResults =
       [lockFailures lockHeldEnv (partitionProjectCmds [planCtx]).1] ∧
     unlockCount (runAutoplan baseRunner lockHeldEnv) = 2 ∧
     (∃ t, runAutoplan baseRunner lockHeldEnv =
        [Event.updateCombined CommitStatus.pending CommandName.plan,
         Event.deletePlans, Event.unlockByPull]
        ++ (partitionProjectCmds [planCtx]).1.map Event.tryLock
        ++ [Event.unlockByPull] ++ t)) ∧
    (poolCalls (run baseRunner genericCmd lockHeldEnv) = [] ∧
     (pullUpdates (run baseRunner genericCmd lockHeldEnv)).map Result.projectResults =
       [lockFailures lockHeldEnv (partitionProjectCmds [planCtx]).1] ∧
     unlockCount (run baseRunner genericCmd lockHeldEnv) =
       (if genericCmd.isForSpecificProject then 1 else 2) ∧
     (∃ t, run baseRunner genericCmd lockHeldEnv =
        [Event.fetchPullReqStatus]
        ++ (if baseRunner.discardApprovalOnPlan then [Event.discardReviews] else [])
        ++ [Event.updateCombined CommitStatus.pending CommandName.plan]
        ++ (if !genericCmd.isForSpecificProject then
              [Event.deletePlans, Event.unlockByPull] else [])
        ++ (partitionProjectCmds [planCtx]).1.map Event.tryLock
        ++ [Event.unlockByPull] ++ t)) :=
  claim_C1 baseRunner genericCmd lockHeldEnv [planCtx] rfl rfl (by decide)

/-- C2, corrected: in the automatic path the policy-check stage is dispatched iff
the partitioned PolicyCheck commands are non-empty and the batch result has no
errors and no plans were discarded (whether or not the final persistence write
succeeded); in the comment path the guard instead tests the batch's ProjectResults:
the stage is dispatched iff the persistence write succeeded, the batch holds at
least one ProjectResult, and there are no errors and no discarded plans — even when
the PolicyCheck command list is empty. -/
theorem claim_C2 (p : PlanCommandRunner) (cmd : CommentCommand) (env : Env)
    (l : List ProjectContext)
    (hb : env.buildCommands = Except.ok l)
    (hpc : (partitionProjectCmds l).1 ≠ []) :
    policyDispatches (runAutoplan p env) =
      (if 0 < (partitionProjectCmds l).2.length &&
          !((finalResult p env (partitionProjectCmds l).1).HasErrors ||
            (finalResult p env (partitionProjectCmds l).1).plansDeleted)
       then [(partitionProjectCmds l).2] else []) ∧
    policyDispatches (run p cmd env) =
      (if dbOk (env.updateDB
            (finalResult p env (partitionProjectCmds l).1).projectResults) &&
          (0 < (finalResult p env (partitionProjectCmds l).1).projectResults.length &&
           !((finalResult p env (partitionProjectCmds l).1).HasErrors ||
             (finalResult p env (partitionProjectCmds l).1).plansDeleted))
       then [(partitionProjectCmds l).2] else []) := by
  have hln : l ≠ [] := by
    intro hz
    rw [hz] at hpc
    exact hpc rfl
  constructor
  · rw [runAutoplan_eq_main p env l hb hpc]
    unfold autoplanMain
    simp only [policyDispatches_append, policyDispatches_corePhase,
      policyDispatches_ucse, policyDispatches_policySeg, policyDispatches,
      List.cons_append, List.nil_append, List.append_nil, List.append_eq]
  · rw [run_eq_main p cmd env l hb (silence_cond_false p l hln)]
    unfold runMain
    simp only [policyDispatches_append, policyDispatches_corePhase,
      policyDispatches_runPostDB, policyDispatches, List.cons_append, List.nil_append,
      List.append_nil, List.append_eq]
    cases hd : p.discardApprovalOnPlan <;>
      cases hsp : cmd.isForSpecificProject <;>
      simp [policyDispatches]

/-- C2 counterexample: a comment pass that builds a single Plan command and no
PolicyCheck command, with lock acquired and the plan succeeding, still dispatches
the policy-check stage (with an empty command list) — refuting the claimed
"dispatched only if the partitioned PolicyCheck commands are non-empty". -/
theorem claim_C2_counterexample :
    (partitionProjectCmds [planCtx]).2 = [] ∧
    baseEnv.buildCommands = Except.ok [planCtx] ∧
    policyDispatches (run baseRunner genericCmd baseEnv) = [[]] :=
  ⟨by decide, rfl, by decide⟩

/-- C2 witness: the corrected dispatch characterization at the same concrete
comment pass. -/
theorem claim_C2_witness :
    policyDispatches (runAutoplan baseRunner baseEnv) =
      (if 0 < (partitionProjectCmds [planCtx]).2.length &&
          !((finalResult baseRunner baseEnv (partitionProjectCmds [planCtx]).1).HasErrors ||
            (finalResult baseRunner baseEnv (partitionProjectCmds [planCtx]).1).plansDeleted)
       then [(partitionProjectCmds [planCtx]).2] else []) ∧
    policyDispatches (run baseRunner genericCmd baseEnv) =
      (if dbOk (baseEnv.updateDB
            (finalResult baseRunner baseEnv (partitionProjectCmds [planCtx]).1).projectResults) &&
          (0 < (finalResult baseRunner baseEnv
              (partitionProjectCmds [planCtx]).1).projectResults.length &&
           !((finalResult baseRunner baseEnv (partitionProjectCmds [planCtx]).1).HasErrors ||
             (finalResult baseRunner baseEnv (partitionProjectCmds [planCtx]).1).plansDeleted))
       then [(partitionProjectCmds [planCtx]).2] else []) :=
  claim_C2 baseRunner genericCmd baseEnv [planCtx] rfl (by decide)

/-- C3, corrected: with a project locker configured, a lock acquisition is
attempted for every Plan-kind command, in input order and never short-circuited
after an earlier failure, in both paths; the number of attempts therefore equals
the count of Plan-kind commands alone — not the combined count of Plan-kind and
PolicyCheck-kind commands, since the lock loop runs over the partitioned Plan-kind
list only. -/
theorem claim_C3 (p : PlanCommandRunner) (cmd : CommentCommand) (env : Env)
    (l : List ProjectContext)
    (hb : env.buildCommands = Except.ok l)
    (hl : p.hasProjectLocker = true) :
    tryLockCmds (runAutoplan p env) = (partitionProjectCmds l).1 ∧
    tryLockCmds (run p cmd env) = (partitionProjectCmds l).1 := by
  constructor
  · by_cases h0 : (partitionProjectCmds l).1.length = 0
    · rw [runAutoplan_zero p env l hb h0, List.length_eq_zero.1 h0]
      split <;> rfl
    · rw [runAutoplan_eq_main p env l hb (fun hz => h0 (by rw [hz]; rfl))]
      unfold autoplanMain
      simp only [tryLockCmds_append, tryLockCmds_corePhase p env _ hl, tryLockCmds_ucse,
        tryLockCmds_policySeg, tryLockCmds, List.cons_append, List.nil_append,
        List.append_nil, List.append_eq]
  · by_cases hz : (l.length = 0 && p.SilenceNoProjects) = true
    · have hz2 : (decide (l.length = 0) = true) ∧ p.SilenceNoProjects = true := by
        simpa using hz
      have hl0 : l = [] := List.length_eq_zero.1 (of_decide_eq_true hz2.1)
      subst hl0
      rw [run_zero p cmd env hb hz2.2]
      cases hd : p.discardApprovalOnPlan <;>
        simp [tryLockCmds_append, tryLockCmds, tryLockCmds_runNoProjects,
          partitionProjectCmds]
    · rw [run_eq_main p cmd env l hb (Bool.eq_false_iff.mpr hz)]
      unfold runMain
      simp only [tryLockCmds_append, tryLockCmds_corePhase p env _ hl,
        tryLockCmds_runPostDB, tryLockCmds, List.cons_append, List.nil_append,
        List.append_nil, List.append_eq]
      cases hd : p.discardApprovalOnPlan <;>
        cases hsp : cmd.isForSpecificProject <;>
        simp [tryLockCmds]

/-- C3 counterexample: a batch of one Plan-kind and one PolicyCheck-kind command
produces one lock attempt, not two — the lock-attempt count equals the Plan-kind
count, refuting "equals the combined count of Plan-kind and PolicyCheck-kind". -/
theorem claim_C3_counterexample :
    mixedEnv.buildCommands = Except.ok [planCtx, policyCtx] ∧
    ([planCtx, policyCtx].filter (fun c =>
        c.commandName == CommandName.plan ||
        c.commandName == CommandName.policyCheck)).length = 2 ∧
    (tryLockCmds (runAutoplan baseRunner mixedEnv)).length = 1 :=
  ⟨rfl, by decide, by decide⟩

/-- C3 witness: at the mixed batch, exactly the Plan-kind commands are attempted in
both paths. -/
theorem claim_C3_witness :
    tryLockCmds (runAutoplan baseRunner mixedEnv) =
      (partitionProjectCmds [planCtx, policyCtx]).1 ∧
    tryLockCmds (run baseRunner genericCmd mixedEnv) =
      (partitionProjectCmds [planCtx, policyCtx]).1 :=
  claim_C3 baseRunner genericCmd mixedEnv [planCtx, policyCtx] rfl rfl

/-- C4: in both paths of a non-empty pass, the batch result posted to the pull has
PlansDeleted set exactly when automerge is enabled for the batch's commands and the
batch result has errors, and in exactly that case one additional plan-artifact
deletion is performed after aggregation — on top of the single unconditional
clear-stale deletion of the automatic path and of generic comment passes; with
automerge disabled, no deletion ever happens in response to errors. -/
theorem claim_C4 (p : PlanCommandRunner) (cmd : CommentCommand) (env : Env)
    (l : List ProjectContext)
    (hb : env.buildCommands = Except.ok l)
    (hpc : (partitionProjectCmds l).1 ≠ []) :
    ((finalResult p env (partitionProjectCmds l).1).plansDeleted =
       (env.automergeEnabled &&
        (execResult p env (partitionProjectCmds l).1).HasErrors) ∧
     pullUpdates (runAutoplan p env) = [finalResult p env (partitionProjectCmds l).1] ∧
     deleteCount (runAutoplan p env) =
       1 + (if env.automergeEnabled &&
              (execResult p env (partitionProjectCmds l).1).HasErrors
            then 1 else 0)) ∧
    (pullUpdates (run p cmd env) = [finalResult p env (partitionProjectCmds l).1] ∧
     deleteCount (run p cmd env) =
       (if cmd.isForSpecificProject then 0 else 1)
       + (if env.automergeEnabled &&
            (execResult p env (partitionProjectCmds l).1).HasErrors
          then 1 else 0)) := by
  have hln : l ≠ [] := by
    intro hz
    rw [hz] at hpc
    exact hpc rfl
  refine ⟨⟨finalResult_plansDeleted p env _, ?_, ?_⟩, ?_, ?_⟩
  · rw [runAutoplan_eq_main p env l hb hpc]
    unfold autoplanMain
    simp only [pullUpdates_append, pullUpdates_corePhase, pullUpdates_ucse,
      pullUpdates_policySeg, pullUpdates, List.cons_append, List.nil_append,
      List.append_nil, List.append_eq]
  · rw [runAutoplan_eq_main p env l hb hpc]
    unfold autoplanMain
    simp only [deleteCount_append, deleteCount_corePhase, deleteCount_ucse,
      deleteCount_policySeg, deleteCount, List.cons_append, List.nil_append,
      List.append_nil, List.append_eq]
    split <;> omega
  · rw [run_eq_main p cmd env l hb (silence_cond_false p l hln)]
    unfold runMain
    simp only [pullUpdates_append, pullUpdates_corePhase, pullUpdates_runPostDB,
      pullUpdates, List.cons_append, List.nil_append, List.append_nil, List.append_eq]
    cases hd : p.discardApprovalOnPlan <;>
      cases hsp : cmd.isForSpecificProject <;>
      simp [pullUpdates]
  · rw [run_eq_main p cmd env l hb (silence_cond_false p l hln)]
    unfold runMain
    simp only [deleteCount_append, deleteCount_corePhase, deleteCount_runPostDB,
      deleteCount, List.cons_append, List.nil_append, List.append_nil, List.append_eq]
    cases hd : p.discardApprovalOnPlan <;>
      cases hsp : cmd.isForSpecificProject <;>
      simp [deleteCount]

/-- C4 witness: at a concrete benign pass (automerge disabled, no errors) the
posted result has PlansDeleted false and only the clear-stale deletion happens. -/
theorem claim_C4_witness :
    ((finalResult baseRunner baseEnv (partitionProjectCmds [planCtx]).1).plansDeleted =
       (baseEnv.automergeEnabled &&
        (execResult baseRunner baseEnv (partitionProjectCmds [planCtx]).1).HasErrors) ∧
     pullUpdates (runAutoplan baseRunner baseEnv) =
       [finalResult baseRunner baseEnv (partitionProjectCmds [planCtx]).1] ∧
     deleteCount (runAutoplan baseRunner baseEnv) =
       1 + (if baseEnv.automergeEnabled &&
              (execResult baseRunner baseEnv (partitionProjectCmds [planCtx]).1).HasErrors
            then 1 else 0)) ∧
    (pullUpdates (run baseRunner genericCmd baseEnv) =
       [finalResult baseRunner baseEnv (partitionProjectCmds [planCtx]).1] ∧
     deleteCount (run baseRunner genericCmd baseEnv) =
       (if genericCmd.isForSpecificProject then 0 else 1)
       + (if baseEnv.automergeEnabled &&
            (execResult baseRunner baseEnv (partitionProjectCmds [planCtx]).1).HasErrors
          then 1 else 0)) :=
  claim_C4 baseRunner genericCmd baseEnv [planCtx] rfl (by decide)

/-- C6, corrected: when the final persistence write fails, the comment path indeed
returns at once — nothing at all follows the write — but the automatic path only
logs the error and continues: the Plan and Apply combined statuses are still
emitted, computed from the zero-value (empty) pull status as success 0/0. -/
theorem claim_C6 (p : PlanCommandRunner) (cmd : CommentCommand) (env : Env)
    (l : List ProjectContext) (e : String)
    (hb : env.buildCommands = Except.ok l)
    (hpc : (partitionProjectCmds l).1 ≠ [])
    (hdb : env.updateDB (finalResult p env (partitionProjectCmds l).1).projectResults =
      Except.error e) :
    eventsAfterDBWrite (run p cmd env) = [] ∧
    statusUpdates (eventsAfterDBWrite (runAutoplan p env)) =
      [Event.updateCombinedCount CommitStatus.success CommandName.plan 0 0,
       Event.updateCombinedCount CommitStatus.success CommandName.apply 0 0] := by
  have hln : l ≠ [] := by
    intro hz
    rw [hz] at hpc
    exact hpc rfl
  constructor
  · rw [eventsAfterDBWrite_run p cmd env l hb (silence_cond_false p l hln), hdb]
    rfl
  · rw [runAutoplan_eq_main p env l hb hpc, eventsAfterDBWrite_autoplanMain]
    have hps : dbPullStatus env (finalResult p env (partitionProjectCmds l).1) =
        { projects := [] } := by
      unfold dbPullStatus
      rw [hdb]
    rw [hps]
    simp only [statusUpdates_append, statusUpdates_policySeg,
      show updateCommitStatusEvents { projects := [] } CommandName.plan =
        [Event.updateCombinedCount CommitStatus.success CommandName.plan 0 0] from rfl,
      show updateCommitStatusEvents { projects := [] } CommandName.apply =
        [Event.updateCombinedCount CommitStatus.success CommandName.apply 0 0] from rfl,
      List.append_nil]
    rfl

/-- C6 counterexample: a concrete automatic pass whose persistence write fails
still emits status updates after the write — refuting "status reporting for that
pass is skipped in either path". -/
theorem claim_C6_counterexample :
    statusUpdates (eventsAfterDBWrite (runAutoplan baseRunner dbFailEnv)) ≠ [] := by
  decide

/-- C6 witness: the corrected behavior at the same concrete failing write. -/
theorem claim_C6_witness :
    eventsAfterDBWrite (run baseRunner genericCmd dbFailEnv) = [] ∧
    statusUpdates (eventsAfterDBWrite (runAutoplan baseRunner dbFailEnv)) =
      [Event.updateCombinedCount CommitStatus.success CommandName.plan 0 0,
       Event.updateCombinedCount CommitStatus.success CommandName.apply 0 0] :=
  claim_C6 baseRunner genericCmd dbFailEnv [planCtx] "db down" rfl (by decide) rfl

/-- C10 witness: the stuck-pending scenario at a concrete configuration. -/
theorem claim_C10_witness :
    statusUpdates (run silentRunner specificCmd noStatusEnv) =
      [Event.updateCombined CommitStatus.pending CommandName.plan] ∧
    run silentRunner specificCmd noStatusEnv =
      [Event.fetchPullReqStatus]
      ++ (if silentRunner.discardApprovalOnPlan then [Event.discardReviews] else [])
      ++ [Event.updateCombined CommitStatus.pending CommandName.plan] :=
  claim_C10 silentRunner specificCmd noStatusEnv "not reachable" rfl rfl rfl rfl rfl

end Atlantis
